import Mathlib

/-!
Verification of the job-status polling coordinator of the NewsMinds frontend.

The embedded code is the polling mechanism repeated in three places of the UI
layer:

* src/frontend/src/app/(dashboard)/sources/page.tsx (second document in the
  file, lines 106-231): global collection job — pollRef, stopPolling,
  startPolling, handleCollectAll, mount-time checkStatus;
* the dashboard page (third document, lines 244-327): same shape;
* src/unnamed/part_004 (SourceTable): per-source jobs — pollRefs as a
  Map from source id to interval handle, stopPolling(sourceId),
  stopAllPolling, startPolling(sourceId), handleCollect.

The embedding generalises all three into one machine keyed by a job
identity (a String: a source id, or the singleton global identity). The
global pages are the special case of a single identity.

State components, with their source counterparts:

* collectingIds — the busy flags: collectingIds in part_004, the
  isCollecting boolean on the global pages (membership of the single id);
* pollRefs — the JobId -> interval-handle map (pollRefs.current in
  part_004, the single pollRef.current on the global pages);
* live — the set of interval timers that have been created by setInterval
  and not yet cleared by clearInterval.  A JS interval object stays live
  (keeps firing) until clearInterval is called on its handle, whether or
  not the map still references it, so live timers are tracked separately
  from the map;
* nextHandle — a fresh-handle counter (setInterval returns fresh handles);
* inflight — fetches dispatched by an interval callback and not yet
  completed.  The interval callback is an async function: the callback
  body starts a fetch and suspends; the suspended continuation runs when
  the fetch settles, even if the interval was cleared in between, and two
  callback invocations of the same interval may be suspended at once
  (setInterval does not wait for the async callback to finish);
* events — the observable outcomes: start requests issued
  (api.collectSource / api.collectAll calls), start failures reported to
  the caller (the toast.error in the catch of handleCollect), and settled
  outcomes delivered (the toast.success / toast.error in the tick body).
-/

/-- Success payload of a finished collection, as read by the tick body
(status.result.new / status.result.source in part_004; the global pages read
the analogous total_new / sources_processed fields). -/
structure ResultPayload where
  new : Nat
  source : String
deriving DecidableEq, Repr

/-- The value fetched from the job-status endpoint, with the three fields the
polling code reads: running, result, error. -/
structure JobStatus where
  running : Bool
  result : Option ResultPayload
  error : Option String
deriving DecidableEq, Repr

/-- Terminal outcome of one run, as delivered to observers. -/
inductive Outcome where
  | success : ResultPayload → Outcome
  | failure : String → Outcome
deriving DecidableEq, Repr

/-- Observable events of the coordinator. -/
inductive Event where
  | startRequested : String → Event
  | startError : String → Event
  | settled : String → Outcome → Event
deriving DecidableEq, Repr

/-- One interval created by setInterval and not yet cleared: its handle, the
job identity its callback closes over, and its period in milliseconds. -/
structure LiveTimer where
  handle : Nat
  jobId : String
  intervalMs : Nat
deriving DecidableEq, Repr

/-- The whole coordinator state. -/
structure CoordState where
  collectingIds : List String
  pollRefs : List (String × Nat)
  live : List LiveTimer
  nextHandle : Nat
  inflight : List (String × Nat)
  events : List Event
deriving DecidableEq, Repr

/-- The fixed poll period: setInterval(..., 3000) in all three occurrences. -/
def pollIntervalMs : Nat := 3000

/-- Map lookup: pollRefs.current.get(sourceId) in part_004 (pollRef.current on
the global pages). -/
def lookupRef (s : CoordState) (id : String) : Option Nat :=
  (s.pollRefs.find? (fun p => p.1 == id)).map Prod.snd

/-- clearInterval(h): the interval with handle h stops being live. -/
def clearIntervalOp (s : CoordState) (h : Nat) : CoordState :=
  { s with live := s.live.filter (fun t => t.handle != h) }

/-- stopPolling(sourceId) of part_004 lines 42-48 (and the global pages): if
the map holds an interval for this id, clearInterval it and delete the map
entry; otherwise do nothing. -/
def stopPolling (s : CoordState) (id : String) : CoordState :=
  match lookupRef s id with
  | some h =>
      let s' := clearIntervalOp s h
      { s' with pollRefs := s'.pollRefs.filter (fun p => p.1 != id) }
  | none => s

/-- stopAllPolling of part_004 lines 50-53: clearInterval every interval held
in the map, then clear the map. -/
def stopAllPolling (s : CoordState) : CoordState :=
  { s with
    live := s.live.filter (fun t => !(s.pollRefs.any (fun p => p.2 == t.handle))),
    pollRefs := [] }

/-- startPolling(sourceId) of part_004 lines 60-89 (and the global pages
lines 151-173): first stopPolling(sourceId), then create a fresh interval at
3000 ms and store its handle in the map. -/
def startPolling (s : CoordState) (id : String) : CoordState :=
  let s' := stopPolling s id
  { s' with
    live := ⟨s'.nextHandle, id, pollIntervalMs⟩ :: s'.live,
    pollRefs := (id, s'.nextHandle) :: s'.pollRefs,
    nextHandle := s'.nextHandle + 1 }

/-- Adding to the busy set: setCollectingIds(prev => new Set(prev).add(id));
a JS Set does not duplicate members. -/
def addCollecting (l : List String) (id : String) : List String :=
  if l.contains id then l else id :: l

/-- Which outcome the tick body delivers for a non-running status: the code
tests truthiness, if (status.error) toast.error else if (status.result)
toast.success — an empty error string is falsy in JS and falls through to the
result test; neither populated delivers nothing. -/
def outcomeOf (st : JobStatus) : Option Outcome :=
  match st.error with
  | some e => if e == "" then st.result.map Outcome.success else some (Outcome.failure e)
  | none => st.result.map Outcome.success

/-- The body of the interval callback once a status value st has been fetched
(part_004 lines 66-81, global pages lines 156-168): while running, nothing;
on the first non-running observation: stopPolling, clear the busy flag,
deliver the outcome if one is populated (onRefresh is a UI refresh and is not
modelled). -/
def tickBody (s : CoordState) (id : String) (st : JobStatus) : CoordState :=
  if st.running then s
  else
    let s1 := stopPolling s id
    let s2 := { s1 with collectingIds := s1.collectingIds.filter (fun x => x != id) }
    match outcomeOf st with
    | some o => { s2 with events := s2.events ++ [Event.settled id o] }
    | none => s2

/-- The atomic events of the coordinator.  collect is handleCollect /
handleCollectAll with ok recording whether the start request resolved; fire
is one invocation of a live interval callback up to its await (it dispatches
a status fetch); complete resumes a dispatched callback with some status, or
with none when the fetch rejected (the catch swallows it); tick is the
common sequential case of a fire whose fetch completes before anything else
runs (again none models a rejected fetch); cancel and cancelAll are
stopPolling and stopAllPolling as used on unmount; probe is the mount-time
checkStatus (sources page lines 132-149, dashboard lines 299-315), with none
modelling a failed probe (its catch also swallows). -/
inductive Act where
  | collect : String → Bool → Act
  | fire : Nat → Act
  | complete : String → Nat → Option JobStatus → Act
  | tick : String → Option JobStatus → Act
  | cancel : String → Act
  | cancelAll : Act
  | probe : String → Option JobStatus → Act
deriving DecidableEq, Repr

/-- handleCollect of part_004 lines 111-125 (handleCollectAll on the global
pages, lines 181-191): set the busy flag, issue the start request; when it
resolves, arm polling; when it rejects, report the failure to the caller and
clear the busy flag.  ok records whether the request resolved. -/
def collectStep (s : CoordState) (id : String) (ok : Bool) : CoordState :=
  let s1 := { s with
    collectingIds := addCollecting s.collectingIds id,
    events := s.events ++ [Event.startRequested id] }
  if ok then startPolling s1 id
  else { s1 with
    events := s1.events ++ [Event.startError id],
    collectingIds := s1.collectingIds.filter (fun x => x != id) }

/-- One firing of a live interval: the async callback runs up to its await,
dispatching a status fetch for the id its closure holds. -/
def fireStep (s : CoordState) (h : Nat) : CoordState :=
  match s.live.find? (fun t => t.handle == h) with
  | some t => { s with inflight := (t.jobId, h) :: s.inflight }
  | none => s

/-- A dispatched fetch completes and the suspended callback continuation
resumes: with a status it runs the tick body (note: with no guard on whether
the interval is still armed), with a rejection the catch swallows it. -/
def completeStep (s : CoordState) (id : String) (h : Nat) (ost : Option JobStatus) :
    CoordState :=
  if s.inflight.contains (id, h) then
    let s1 := { s with inflight := s.inflight.erase (id, h) }
    match ost with
    | some st => tickBody s1 id st
    | none => s1
  else s

/-- A sequential tick: the armed interval for id fires and its fetch
completes before anything else runs. -/
def tickStep (s : CoordState) (id : String) (ost : Option JobStatus) : CoordState :=
  match lookupRef s id with
  | some _ =>
      match ost with
      | some st => tickBody s id st
      | none => s
  | none => s

/-- The mount-time checkStatus: probe once; arm polling only on running true;
swallow a failed probe. -/
def probeStep (s : CoordState) (id : String) (ost : Option JobStatus) : CoordState :=
  match ost with
  | some st =>
      if st.running then
        startPolling { s with collectingIds := addCollecting s.collectingIds id } id
      else s
  | none => s

/-- One step of the coordinator.  Guards that fail (a tick of an unarmed id, a
completion that was never dispatched, a fire of a cleared interval) mean the
event cannot occur, so the state is unchanged. -/
def applyAction (s : CoordState) (a : Act) : CoordState :=
  match a with
  | .collect id ok => collectStep s id ok
  | .fire h => fireStep s h
  | .complete id h ost => completeStep s id h ost
  | .tick id ost => tickStep s id ost
  | .cancel id => stopPolling s id
  | .cancelAll => stopAllPolling s
  | .probe id ost => probeStep s id ost

/-- The state of a freshly mounted coordinator: no busy flags, no timers, no
dispatched fetches, no events. -/
def initState : CoordState := ⟨[], [], [], 0, [], []⟩

/-- Run a sequence of events. -/
def run (s : CoordState) (tr : List Act) : CoordState :=
  tr.foldl applyAction s

/-- The spec phase abstraction for one id: Running while its timer is armed,
Starting when only the busy flag is set (in the code this also covers the
busy-flag-without-timer state), Idle otherwise.  The Settled phase of the
spec collapses to Idle in the same atomic tick that delivers the outcome, so
it is never observable between steps. -/
inductive Phase where
  | Idle | Starting | Running
deriving DecidableEq, Repr

def armed (s : CoordState) (id : String) : Bool :=
  (lookupRef s id).isSome

def phase (s : CoordState) (id : String) : Phase :=
  if armed s id then Phase.Running
  else if s.collectingIds.contains id then Phase.Starting
  else Phase.Idle

def isSettledFor (id : String) : Event → Bool
  | .settled j _ => j == id
  | _ => false

/-- The settlement history of one id: the settled events delivered for it. -/
def settledEvents (id : String) (s : CoordState) : List Event :=
  s.events.filter (isSettledFor id)

def settledCount (id : String) (s : CoordState) : Nat :=
  (settledEvents id s).length

def isStartReqFor (id : String) : Event → Bool
  | .startRequested j => j == id
  | _ => false

/-- How many start requests have been issued for one id. -/
def startReqCount (id : String) (s : CoordState) : Nat :=
  (s.events.filter (isStartReqFor id)).length

/-- The live interval timers belonging to one id. -/
def liveFor (id : String) (s : CoordState) : List LiveTimer :=
  s.live.filter (fun t => t.jobId == id)

/-- The dispatched, not yet completed fetches belonging to one id. -/
def inflightFor (id : String) (s : CoordState) : List (String × Nat) :=
  s.inflight.filter (fun p => p.1 == id)

/-- Concrete identities and statuses used by witnesses and counterexamples. -/
def idA : String := "a"

def idB : String := "b"

def payloadBBC : ResultPayload := ⟨12, "BBC"⟩

/-- A terminal status carrying a success payload (the literal scenario of the
spec: running false, result with 12 new articles from BBC). -/
def doneStatus : JobStatus := ⟨false, some payloadBBC, none⟩

/-- A status with running false and neither result nor error populated, as the
status endpoint returns for a job that never ran. -/
def unknownStatus : JobStatus := ⟨false, none, none⟩

example : settledCount idA (run initState
    [Act.collect idA true, Act.tick idA (some doneStatus)]) = 1 := by decide

example : phase (run initState [Act.collect idA true]) idA = Phase.Running := by decide

/-! ## Helper lemmas about the operations -/

theorem stopPolling_collectingIds (s : CoordState) (id : String) :
    (stopPolling s id).collectingIds = s.collectingIds := by
  unfold stopPolling
  cases lookupRef s id <;> rfl

theorem stopPolling_events (s : CoordState) (id : String) :
    (stopPolling s id).events = s.events := by
  unfold stopPolling
  cases lookupRef s id <;> rfl

theorem stopPolling_inflight (s : CoordState) (id : String) :
    (stopPolling s id).inflight = s.inflight := by
  unfold stopPolling
  cases lookupRef s id <;> rfl

theorem stopPolling_nextHandle (s : CoordState) (id : String) :
    (stopPolling s id).nextHandle = s.nextHandle := by
  unfold stopPolling
  cases lookupRef s id <;> rfl

theorem startPolling_collectingIds (s : CoordState) (id : String) :
    (startPolling s id).collectingIds = s.collectingIds := by
  simp [startPolling, stopPolling_collectingIds]

theorem startPolling_events (s : CoordState) (id : String) :
    (startPolling s id).events = s.events := by
  simp [startPolling, stopPolling_events]

theorem startPolling_inflight (s : CoordState) (id : String) :
    (startPolling s id).inflight = s.inflight := by
  simp [startPolling, stopPolling_inflight]

theorem find_key_filter_self (l : List (String × Nat)) (a : String) :
    (l.filter (fun p => p.1 != a)).find? (fun p => p.1 == a) = none := by
  induction l with
  | nil => rfl
  | cons p t ih =>
      by_cases hp : p.1 = a
      · simp [List.filter_cons, hp, ih]
      · simp [List.filter_cons, hp, List.find?_cons, ih]

theorem find_key_filter_ne (l : List (String × Nat)) (a b : String) (hab : a ≠ b) :
    (l.filter (fun p => p.1 != b)).find? (fun p => p.1 == a) =
      l.find? (fun p => p.1 == a) := by
  induction l with
  | nil => rfl
  | cons p t ih =>
      by_cases hpb : p.1 = b
      · have hpa : ¬ p.1 = a := by
          rw [hpb]; exact fun h => hab h.symm
        have hba : ¬ b = a := fun h => hab h.symm
        simp [List.filter_cons, hpb, List.find?_cons, hpa, ih, hba]
      · by_cases hpa : p.1 = a
        · simp [List.filter_cons, hpb, List.find?_cons, hpa, hab]
        · simp [List.filter_cons, hpb, List.find?_cons, hpa, ih, hab]

theorem lookupRef_stopPolling_self (s : CoordState) (id : String) :
    lookupRef (stopPolling s id) id = none := by
  unfold stopPolling
  cases hl : lookupRef s id with
  | none => exact hl
  | some h => simp [lookupRef, clearIntervalOp, find_key_filter_self]

theorem lookupRef_stopPolling_ne (s : CoordState) (id b : String) (hb : b ≠ id) :
    lookupRef (stopPolling s id) b = lookupRef s b := by
  unfold stopPolling
  cases hl : lookupRef s id with
  | none => rfl
  | some h => simp [lookupRef, clearIntervalOp, find_key_filter_ne _ _ _ hb]

theorem lookupRef_startPolling_self (s : CoordState) (id : String) :
    lookupRef (startPolling s id) id = some s.nextHandle := by
  simp [startPolling, lookupRef, List.find?_cons, stopPolling_nextHandle]

theorem lookupRef_startPolling_ne (s : CoordState) (id b : String) (hb : b ≠ id) :
    lookupRef (startPolling s id) b = lookupRef s b := by
  have hid : ¬ id = b := fun h => hb h.symm
  calc lookupRef (startPolling s id) b
      = lookupRef (stopPolling s id) b := by
        simp [startPolling, lookupRef, List.find?_cons, hid]
    _ = lookupRef s b := lookupRef_stopPolling_ne s id b hb

theorem contains_filter_self (l : List String) (a : String) :
    (l.filter (fun x => x != a)).contains a = false := by
  simp [List.mem_filter]

theorem contains_filter_ne (l : List String) (a b : String) (hab : b ≠ a) :
    (l.filter (fun x => x != a)).contains b = l.contains b := by
  simp [List.mem_filter, hab]

theorem contains_addCollecting_ne (l : List String) (a b : String) (hab : b ≠ a) :
    (addCollecting l a).contains b = l.contains b := by
  unfold addCollecting
  by_cases hc : a ∈ l
  · simp [hc]
  · simp [hc, hab]

/-- A status reporting a job still in progress. -/
def runningStatus : JobStatus := ⟨true, none, none⟩

/-! ## Claim theorems -/

/-- Claim C3: a tick whose status fetch throws or rejects is swallowed by the
empty catch.  A sequential tick with a rejected fetch leaves the whole state
unchanged — phase, busy flag, events, and the armed timer with its 3000 ms
period included, so the next tick still fires at the original interval — and
the completion of an overlapped in-flight fetch with a rejection changes none
of the busy flags, the timer map, the live timers, or the events. -/
theorem poll_fetch_failure_is_noop (s : CoordState) (id : String) (h : Nat) :
    applyAction s (Act.tick id none) = s
    ∧ (applyAction s (Act.complete id h none)).pollRefs = s.pollRefs
    ∧ (applyAction s (Act.complete id h none)).live = s.live
    ∧ (applyAction s (Act.complete id h none)).collectingIds = s.collectingIds
    ∧ (applyAction s (Act.complete id h none)).events = s.events := by
  refine ⟨?_, ?_, ?_, ?_, ?_⟩
  · show tickStep s id none = s
    unfold tickStep
    cases lookupRef s id <;> rfl
  · show (completeStep s id h none).pollRefs = s.pollRefs
    unfold completeStep
    split <;> rfl
  · show (completeStep s id h none).live = s.live
    unfold completeStep
    split <;> rfl
  · show (completeStep s id h none).collectingIds = s.collectingIds
    unfold completeStep
    split <;> rfl
  · show (completeStep s id h none).events = s.events
    unfold completeStep
    split <;> rfl

/-- Claim C2: a start whose request rejects (handleCollect / handleCollectAll
catch branch) reports the failure in the same atomic step as the rejection
(the toast.error of the catch, recorded as the startError event), arms no
polling timer, clears the busy flag, and returns the phase to Idle — stated
for any state in which no timer is armed for this id, which is the state a
start is made from. -/
theorem start_failure_synchronous_idle (s : CoordState) (id : String)
    (h : lookupRef s id = none) :
    (applyAction s (Act.collect id false)).pollRefs = s.pollRefs
    ∧ (applyAction s (Act.collect id false)).live = s.live
    ∧ phase (applyAction s (Act.collect id false)) id = Phase.Idle
    ∧ (applyAction s (Act.collect id false)).events =
        s.events ++ [Event.startRequested id, Event.startError id] := by
  refine ⟨rfl, rfl, ?_, ?_⟩
  · have hl : lookupRef (applyAction s (Act.collect id false)) id = none := h
    have hc : (applyAction s (Act.collect id false)).collectingIds.contains id = false := by
      have : (applyAction s (Act.collect id false)).collectingIds =
          (addCollecting s.collectingIds id).filter (fun x => x != id) := rfl
      rw [this, contains_filter_self]
    have hm : id ∉ (applyAction s (Act.collect id false)).collectingIds := by
      simpa using hc
    simp [phase, armed, hl, hm]
  · show (s.events ++ [Event.startRequested id]) ++ [Event.startError id] = _
    simp

/-- Claim C2 witness: starting from the initial state, a failed start leaves
the phase Idle and records exactly the start request and its synchronous
failure report. -/
theorem start_failure_synchronous_idle_witness :
    lookupRef initState idA = none
    ∧ phase (applyAction initState (Act.collect idA false)) idA = Phase.Idle
    ∧ (applyAction initState (Act.collect idA false)).events =
        [Event.startRequested idA, Event.startError idA] :=
  ⟨rfl, (start_failure_synchronous_idle initState idA rfl).2.2.1,
    (start_failure_synchronous_idle initState idA rfl).2.2.2⟩

/-- Claim C6: a tick that observes running false with neither result nor
error populated (the status of a job that never ran) ends with the phase
Idle and delivers nothing: the event list is exactly as before, so no
settled outcome — spurious success or failure — is ever reported. -/
theorem unknown_status_yields_idle (s : CoordState) (id : String)
    (h : armed s id = true) :
    phase (applyAction s (Act.tick id (some unknownStatus))) id = Phase.Idle
    ∧ (applyAction s (Act.tick id (some unknownStatus))).events = s.events := by
  obtain ⟨h0, hl⟩ : ∃ h0, lookupRef s id = some h0 := by
    cases hx : lookupRef s id with
    | none => rw [armed, hx] at h; simp at h
    | some v => exact ⟨v, rfl⟩
  have hstep : applyAction s (Act.tick id (some unknownStatus)) =
      tickBody s id unknownStatus := by
    show tickStep s id (some unknownStatus) = _
    unfold tickStep
    rw [hl]
  have hbody : tickBody s id unknownStatus =
      { stopPolling s id with
        collectingIds := (stopPolling s id).collectingIds.filter (fun x => x != id) } := rfl
  rw [hstep, hbody]
  constructor
  · have hl2 : lookupRef
        { stopPolling s id with
          collectingIds := (stopPolling s id).collectingIds.filter (fun x => x != id) } id =
        lookupRef (stopPolling s id) id := rfl
    have hc : ((stopPolling s id).collectingIds.filter (fun x => x != id)).contains id
        = false := contains_filter_self _ _
    simp [phase, armed, hl2, lookupRef_stopPolling_self, hc]
  · exact stopPolling_events s id

/-- Claim C6 witness: a running job whose next tick observes the
never-started status ends Idle with no event ever delivered. -/
theorem unknown_status_yields_idle_witness :
    armed (run initState [Act.collect idA true]) idA = true
    ∧ phase (applyAction (run initState [Act.collect idA true])
        (Act.tick idA (some unknownStatus))) idA = Phase.Idle :=
  ⟨by decide, (unknown_status_yields_idle _ idA (by decide)).1⟩

/-- Claim C10: the mount-time status probe (checkStatus) arms polling only
when it observes running true; observing running false — even with a stale
result or error still populated — or a failing probe leaves the state
exactly as it was: no timer armed, no notification delivered, phase
unchanged (Idle stays Idle). -/
theorem mount_probe_no_replay (s : CoordState) (id : String) (st : JobStatus) :
    (st.running = false → applyAction s (Act.probe id (some st)) = s)
    ∧ applyAction s (Act.probe id none) = s
    ∧ (st.running = true →
        lookupRef (applyAction s (Act.probe id (some st))) id = some s.nextHandle) := by
  refine ⟨?_, rfl, ?_⟩
  · intro hr
    show probeStep s id (some st) = s
    simp [probeStep, hr]
  · intro hr
    have hstep : applyAction s (Act.probe id (some st)) =
        startPolling { s with collectingIds := addCollecting s.collectingIds id } id := by
      show probeStep s id (some st) = _
      simp [probeStep, hr]
    rw [hstep, lookupRef_startPolling_self]

/-- Claim C10 witness: probing a stale terminal status (running false with a
populated result) replays nothing, and probing a running status arms the
timer. -/
theorem mount_probe_no_replay_witness :
    applyAction initState (Act.probe idA (some doneStatus)) = initState
    ∧ lookupRef (applyAction initState (Act.probe idA (some runningStatus))) idA
        = some 0 :=
  ⟨(mount_probe_no_replay initState idA doneStatus).1 rfl,
    (mount_probe_no_replay initState idA runningStatus).2.2 rfl⟩

/-- Claim C7 counterexample: cancelling a running job does not return the
phase to Idle.  stopPolling releases the interval but never clears the busy
flag (collectingIds / isCollecting), so after collect followed by cancel the
coordinator is still flagged busy and the phase is not Idle, refuting the
claimed Running to Idle transition of cancel. -/
theorem cancel_leaves_busy_flag :
    phase (run initState [Act.collect idA true]) idA = Phase.Running
    ∧ phase (run initState [Act.collect idA true, Act.cancel idA]) idA ≠ Phase.Idle := by
  decide

/-- Claim C7 as amended: cancel(id) releases the timer for id (no map entry
remains), delivers no outcome (the events are exactly as before), and is a
no-op when no timer is armed — likewise cancelAll on an empty timer map —
but it leaves the busy flag untouched, so the phase does not return to
Idle while the flag is set. -/
theorem cancel_silent_and_noop_safe (s : CoordState) (id : String) :
    lookupRef (applyAction s (Act.cancel id)) id = none
    ∧ (applyAction s (Act.cancel id)).events = s.events
    ∧ (applyAction s (Act.cancel id)).collectingIds = s.collectingIds
    ∧ (lookupRef s id = none → applyAction s (Act.cancel id) = s)
    ∧ (s.pollRefs = [] → applyAction s Act.cancelAll = s) := by
  refine ⟨?_, ?_, ?_, ?_, ?_⟩
  · show lookupRef (stopPolling s id) id = none
    exact lookupRef_stopPolling_self s id
  · show (stopPolling s id).events = s.events
    exact stopPolling_events s id
  · show (stopPolling s id).collectingIds = s.collectingIds
    exact stopPolling_collectingIds s id
  · intro h
    show stopPolling s id = s
    unfold stopPolling
    rw [h]
  · intro h
    show stopAllPolling s = s
    obtain ⟨c, pr, lv, nh, inf, ev⟩ := s
    simp only at h
    subst h
    simp [stopAllPolling]

/-- Claim C7 witness: on the initial state (no timer armed) cancel and
cancelAll are exact no-ops. -/
theorem cancel_silent_and_noop_safe_witness :
    applyAction initState (Act.cancel idA) = initState
    ∧ applyAction initState Act.cancelAll = initState :=
  ⟨(cancel_silent_and_noop_safe initState idA).2.2.2.1 rfl,
    (cancel_silent_and_noop_safe initState idA).2.2.2.2 rfl⟩

/-- Claim C4 counterexample: calling start on an id that is already Running
is not rejected with AlreadyRunning: the handler has no guard (the duplicate
call is only prevented by the disabled button in the UI), so a second
collect while Running issues a second start request and records no error of
any kind. -/
theorem start_while_running_not_rejected :
    phase (run initState [Act.collect idA true]) idA = Phase.Running
    ∧ startReqCount idA (run initState [Act.collect idA true, Act.collect idA true]) = 2
    ∧ (run initState [Act.collect idA true, Act.collect idA true]).events =
        [Event.startRequested idA, Event.startRequested idA] := by
  decide

/-- The map entries for id after stopPolling(id): none remain. -/
theorem filter_key_stopPolling (s : CoordState) (id : String) :
    (stopPolling s id).pollRefs.filter (fun p => p.1 == id) = [] := by
  unfold stopPolling
  cases hl : lookupRef s id with
  | none =>
      have hf : s.pollRefs.find? (fun p => p.1 == id) = none := by
        unfold lookupRef at hl
        cases hx : s.pollRefs.find? (fun p => p.1 == id) with
        | none => rfl
        | some v => rw [hx] at hl; simp at hl
      rw [List.filter_eq_nil_iff]
      intro p hp
      have := List.find?_eq_none.mp hf p hp
      simpa using this
  | some h =>
      show ((clearIntervalOp s h).pollRefs.filter (fun p => p.1 != id)).filter
          (fun p => p.1 == id) = []
      rw [List.filter_eq_nil_iff]
      intro p hp
      have hmem := List.mem_filter.mp hp
      simp only [bne_iff_ne, ne_eq, decide_eq_true_eq] at hmem
      simp [hmem.2]

/-- Claim C4 as amended: a start on an id whose timer is already armed
(Running) is not rejected — it issues another start request (and records no
error), and re-arms polling: the old timer is released first, so the map
ends with exactly one entry for the id, holding the freshly created
handle. -/
theorem start_while_running_replaces_timer (s : CoordState) (id : String)
    (_h : (lookupRef s id).isSome = true) :
    (applyAction s (Act.collect id true)).events = s.events ++ [Event.startRequested id]
    ∧ lookupRef (applyAction s (Act.collect id true)) id = some s.nextHandle
    ∧ ((applyAction s (Act.collect id true)).pollRefs.filter
        (fun p => p.1 == id)).length = 1 := by
  refine ⟨?_, ?_, ?_⟩
  · show (startPolling { s with
        collectingIds := addCollecting s.collectingIds id,
        events := s.events ++ [Event.startRequested id] } id).events = _
    rw [startPolling_events]
  · show lookupRef (startPolling { s with
        collectingIds := addCollecting s.collectingIds id,
        events := s.events ++ [Event.startRequested id] } id) id = _
    rw [lookupRef_startPolling_self]
  · show ((startPolling { s with
        collectingIds := addCollecting s.collectingIds id,
        events := s.events ++ [Event.startRequested id] } id).pollRefs.filter
          (fun p => p.1 == id)).length = 1
    simp [startPolling, List.filter_cons, filter_key_stopPolling]

/-- Claim C4 witness: a second start while Running re-arms with the fresh
handle. -/
theorem start_while_running_replaces_timer_witness :
    (lookupRef (run initState [Act.collect idA true]) idA).isSome = true
    ∧ lookupRef (applyAction (run initState [Act.collect idA true])
        (Act.collect idA true)) idA = some (run initState [Act.collect idA true]).nextHandle :=
  ⟨by decide, (start_while_running_replaces_timer _ idA (by decide)).2.1⟩

/-! ## Reduction of applyAction to the step functions -/

theorem applyAction_collect (s : CoordState) (i : String) (ok : Bool) :
    applyAction s (Act.collect i ok) = collectStep s i ok := rfl

theorem applyAction_fire (s : CoordState) (h : Nat) :
    applyAction s (Act.fire h) = fireStep s h := rfl

theorem applyAction_complete (s : CoordState) (i : String) (h : Nat)
    (ost : Option JobStatus) :
    applyAction s (Act.complete i h ost) = completeStep s i h ost := rfl

theorem applyAction_tick (s : CoordState) (i : String) (ost : Option JobStatus) :
    applyAction s (Act.tick i ost) = tickStep s i ost := rfl

theorem applyAction_cancel (s : CoordState) (i : String) :
    applyAction s (Act.cancel i) = stopPolling s i := rfl

theorem applyAction_cancelAll (s : CoordState) :
    applyAction s Act.cancelAll = stopAllPolling s := rfl

theorem applyAction_probe (s : CoordState) (i : String) (ost : Option JobStatus) :
    applyAction s (Act.probe i ost) = probeStep s i ost := rfl

/-! ## Frame lemmas: operations on one id leave other ids untouched -/

theorem isSettledFor_settled_ne (b i : String) (o : Outcome) (hi : i ≠ b) :
    isSettledFor b (Event.settled i o) = false := by
  simp [isSettledFor, hi]

theorem isSettledFor_startRequested (b i : String) :
    isSettledFor b (Event.startRequested i) = false := rfl

theorem isSettledFor_startError (b i : String) :
    isSettledFor b (Event.startError i) = false := rfl

theorem filter_settled_append (evs : List Event) (e : Event) (b : String)
    (he : isSettledFor b e = false) :
    (evs ++ [e]).filter (isSettledFor b) = evs.filter (isSettledFor b) := by
  simp [List.filter_append, he]

/-- The tick body for one id does not touch the map entry, the busy flag, or
the settlement history of a different id. -/
theorem tickBody_other (s : CoordState) (id b : String) (hb : id ≠ b)
    (st : JobStatus) :
    lookupRef (tickBody s id st) b = lookupRef s b
    ∧ (tickBody s id st).collectingIds.contains b = s.collectingIds.contains b
    ∧ (tickBody s id st).events.filter (isSettledFor b)
        = s.events.filter (isSettledFor b) := by
  have hbid : b ≠ id := fun hh => hb hh.symm
  unfold tickBody
  cases hr : st.running with
  | true => exact ⟨rfl, rfl, rfl⟩
  | false =>
      simp only [Bool.false_eq_true, if_false]
      cases ho : outcomeOf st with
      | some o =>
          refine ⟨?_, ?_, ?_⟩
          · exact Eq.trans rfl (lookupRef_stopPolling_ne s id b hbid)
          · show ((stopPolling s id).collectingIds.filter (fun x => x != id)).contains b
                = s.collectingIds.contains b
            rw [stopPolling_collectingIds, contains_filter_ne _ _ _ hbid]
          · show ((stopPolling s id).events ++ [Event.settled id o]).filter (isSettledFor b)
                = s.events.filter (isSettledFor b)
            rw [stopPolling_events,
              filter_settled_append _ _ _ (isSettledFor_settled_ne b id o hb)]
      | none =>
          refine ⟨?_, ?_, ?_⟩
          · exact Eq.trans rfl (lookupRef_stopPolling_ne s id b hbid)
          · show ((stopPolling s id).collectingIds.filter (fun x => x != id)).contains b
                = s.collectingIds.contains b
            rw [stopPolling_collectingIds, contains_filter_ne _ _ _ hbid]
          · show (stopPolling s id).events.filter (isSettledFor b)
                = s.events.filter (isSettledFor b)
            rw [stopPolling_events]

/-- Starting one id (with either request outcome) does not touch the map
entry, the busy flag, or the settlement history of a different id. -/
theorem collectStep_other (s : CoordState) (i b : String) (ok : Bool) (hbi : b ≠ i) :
    lookupRef (collectStep s i ok) b = lookupRef s b
    ∧ (collectStep s i ok).collectingIds.contains b = s.collectingIds.contains b
    ∧ (collectStep s i ok).events.filter (isSettledFor b)
        = s.events.filter (isSettledFor b) := by
  unfold collectStep
  cases ok with
  | true =>
      simp only [if_true]
      refine ⟨?_, ?_, ?_⟩
      · exact Eq.trans (lookupRef_startPolling_ne _ i b hbi) rfl
      · rw [startPolling_collectingIds]
        exact contains_addCollecting_ne _ _ _ hbi
      · rw [startPolling_events]
        exact filter_settled_append _ _ _ (isSettledFor_startRequested b i)
  | false =>
      simp only [Bool.false_eq_true, if_false]
      refine ⟨rfl, ?_, ?_⟩
      · show ((addCollecting s.collectingIds i).filter (fun x => x != i)).contains b
            = s.collectingIds.contains b
        rw [contains_filter_ne _ _ _ hbi, contains_addCollecting_ne _ _ _ hbi]
      · show ((s.events ++ [Event.startRequested i]) ++ [Event.startError i]).filter
            (isSettledFor b) = s.events.filter (isSettledFor b)
        rw [filter_settled_append _ _ _ (isSettledFor_startError b i),
          filter_settled_append _ _ _ (isSettledFor_startRequested b i)]

/-- A fire only adds an in-flight fetch: every id keeps its map entry, busy
flag, and settlement history. -/
theorem fireStep_frame (s : CoordState) (h : Nat) (b : String) :
    lookupRef (fireStep s h) b = lookupRef s b
    ∧ (fireStep s h).collectingIds.contains b = s.collectingIds.contains b
    ∧ (fireStep s h).events.filter (isSettledFor b)
        = s.events.filter (isSettledFor b) := by
  unfold fireStep
  cases hf : s.live.find? (fun t => t.handle == h) with
  | some t => exact ⟨rfl, rfl, rfl⟩
  | none => exact ⟨rfl, rfl, rfl⟩

/-- A completion for one id does not touch the map entry, busy flag, or
settlement history of a different id. -/
theorem completeStep_other (s : CoordState) (i b : String) (h : Nat)
    (ost : Option JobStatus) (hib : i ≠ b) :
    lookupRef (completeStep s i h ost) b = lookupRef s b
    ∧ (completeStep s i h ost).collectingIds.contains b = s.collectingIds.contains b
    ∧ (completeStep s i h ost).events.filter (isSettledFor b)
        = s.events.filter (isSettledFor b) := by
  unfold completeStep
  by_cases hc : s.inflight.contains (i, h) = true
  · simp only [hc, if_true]
    cases ost with
    | some st =>
        exact tickBody_other { s with inflight := s.inflight.erase (i, h) } i b hib st
    | none => exact ⟨rfl, rfl, rfl⟩
  · simp only [hc, if_false]
    exact ⟨rfl, rfl, rfl⟩

/-- A sequential tick for one id does not touch the map entry, busy flag, or
settlement history of a different id. -/
theorem tickStep_other (s : CoordState) (i b : String) (ost : Option JobStatus)
    (hib : i ≠ b) :
    lookupRef (tickStep s i ost) b = lookupRef s b
    ∧ (tickStep s i ost).collectingIds.contains b = s.collectingIds.contains b
    ∧ (tickStep s i ost).events.filter (isSettledFor b)
        = s.events.filter (isSettledFor b) := by
  unfold tickStep
  cases hl : lookupRef s i with
  | some v =>
      cases ost with
      | some st => exact tickBody_other s i b hib st
      | none => exact ⟨rfl, rfl, rfl⟩
  | none => exact ⟨rfl, rfl, rfl⟩

/-- A mount-time probe for one id does not touch the map entry, busy flag, or
settlement history of a different id. -/
theorem probeStep_other (s : CoordState) (i b : String) (ost : Option JobStatus)
    (hbi : b ≠ i) :
    lookupRef (probeStep s i ost) b = lookupRef s b
    ∧ (probeStep s i ost).collectingIds.contains b = s.collectingIds.contains b
    ∧ (probeStep s i ost).events.filter (isSettledFor b)
        = s.events.filter (isSettledFor b) := by
  unfold probeStep
  cases ost with
  | some st =>
      by_cases hr : st.running = true
      · simp only [hr, if_true]
        refine ⟨?_, ?_, ?_⟩
        · exact Eq.trans (lookupRef_startPolling_ne _ i b hbi) rfl
        · rw [startPolling_collectingIds]
          exact contains_addCollecting_ne _ _ _ hbi
        · rw [startPolling_events]
      · simp only [hr, if_false]
        exact ⟨rfl, rfl, rfl⟩
  | none => exact ⟨rfl, rfl, rfl⟩

/-- Which id an action operates on (none for fire, which is identified by a
timer handle, and for cancelAll). -/
def actionId : Act → Option String
  | .collect i _ => some i
  | .complete i _ _ => some i
  | .tick i _ => some i
  | .cancel i => some i
  | .probe i _ => some i
  | .fire _ => none
  | .cancelAll => none

/-- Claim C8: starting, ticking (fire or completion included), settling,
cancelling, or probing one job identity never changes the phase, the
timer-handle map entry, the busy flag, or the settlement history of a
different identity b. -/
theorem independence_across_jobs (s : CoordState) (a : Act) (b : String)
    (ht : ∀ i, actionId a = some i → i ≠ b) (hca : a ≠ Act.cancelAll) :
    lookupRef (applyAction s a) b = lookupRef s b
    ∧ (applyAction s a).collectingIds.contains b = s.collectingIds.contains b
    ∧ settledEvents b (applyAction s a) = settledEvents b s
    ∧ phase (applyAction s a) b = phase s b := by
  have base : lookupRef (applyAction s a) b = lookupRef s b
      ∧ (applyAction s a).collectingIds.contains b = s.collectingIds.contains b
      ∧ (applyAction s a).events.filter (isSettledFor b)
          = s.events.filter (isSettledFor b) := by
    cases a with
    | collect i ok =>
        rw [applyAction_collect]
        exact collectStep_other s i b ok (fun hh => ht i rfl hh.symm)
    | fire h =>
        rw [applyAction_fire]
        exact fireStep_frame s h b
    | complete i h ost =>
        rw [applyAction_complete]
        exact completeStep_other s i b h ost (ht i rfl)
    | tick i ost =>
        rw [applyAction_tick]
        exact tickStep_other s i b ost (ht i rfl)
    | cancel i =>
        rw [applyAction_cancel]
        exact ⟨lookupRef_stopPolling_ne s i b (fun hh => ht i rfl hh.symm),
          by rw [stopPolling_collectingIds], by rw [stopPolling_events]⟩
    | cancelAll => exact absurd rfl hca
    | probe i ost =>
        rw [applyAction_probe]
        exact probeStep_other s i b ost (fun hh => ht i rfl hh.symm)
  refine ⟨base.1, base.2.1, base.2.2, ?_⟩
  simp only [phase, armed, base.1, base.2.1]

/-- Claim C8 witness: starting job a from the initial state leaves job b
entirely untouched. -/
theorem independence_across_jobs_witness :
    lookupRef (applyAction initState (Act.collect idA true)) idB = lookupRef initState idB
    ∧ phase (applyAction initState (Act.collect idA true)) idB = phase initState idB :=
  ⟨(independence_across_jobs initState (Act.collect idA true) idB
      (by intro i hi; cases hi; decide) (by decide)).1,
    (independence_across_jobs initState (Act.collect idA true) idB
      (by intro i hi; cases hi; decide) (by decide)).2.2.2⟩

/-! ## The timer invariant: live intervals correspond one-to-one to map
entries.  This is the discipline the code maintains by always calling
stopPolling before setInterval and clearInterval together with map
deletion; it is what rules out leaked duplicate timers. -/

/-- The live timer a map entry stands for. -/
def conv (p : String × Nat) : LiveTimer := ⟨p.2, p.1, pollIntervalMs⟩

/-- The timer wellformedness invariant: the live intervals are exactly the
map entries (at the 3000 ms period), map keys and handles are unique, and
all recorded handles are below the fresh-handle counter. -/
structure TimerInv (s : CoordState) : Prop where
  liveEq : s.live = s.pollRefs.map conv
  keysNodup : (s.pollRefs.map Prod.fst).Nodup
  valsNodup : (s.pollRefs.map Prod.snd).Nodup
  bound : ∀ p ∈ s.pollRefs, p.2 < s.nextHandle

theorem stopPolling_eq_of_none (s : CoordState) (id : String)
    (h : lookupRef s id = none) : stopPolling s id = s := by
  unfold stopPolling
  rw [h]

theorem lookupRef_some_mem (s : CoordState) (id : String) (h : Nat)
    (hl : lookupRef s id = some h) : (id, h) ∈ s.pollRefs := by
  unfold lookupRef at hl
  cases hx : s.pollRefs.find? (fun p => p.1 == id) with
  | none => rw [hx] at hl; simp at hl
  | some p =>
      rw [hx] at hl
      simp only [Option.map_some', Option.some.injEq] at hl
      have hpred := List.find?_some hx
      have hmem : p ∈ s.pollRefs := List.mem_of_find?_eq_some hx
      have hp1 : p.1 = id := by simpa using hpred
      have hp : p = (id, h) := by
        obtain ⟨x, y⟩ := p
        exact Prod.ext hp1 hl
      rw [hp] at hmem
      exact hmem

/-- Under unique keys and unique handles, deleting by handle and deleting by
key select the same entries. -/
theorem key_val_iff (l : List (String × Nat))
    (hk : (l.map Prod.fst).Nodup) (hv : (l.map Prod.snd).Nodup)
    (id : String) (h : Nat) (hmem : (id, h) ∈ l) :
    ∀ p ∈ l, (p.2 != h) = (p.1 != id) := by
  intro p hp
  by_cases h1 : p.1 = id
  · have hpe : p = (id, h) :=
      List.inj_on_of_nodup_map hk hp hmem (by simpa using h1)
    rw [hpe]
    simp
  · have h2 : p.2 ≠ h := by
      intro he
      have hpe : p = (id, h) :=
        List.inj_on_of_nodup_map hv hp hmem (by simpa using he)
      exact h1 (by rw [hpe])
    have e1 : (p.2 != h) = true := bne_iff_ne.mpr h2
    have e2 : (p.1 != id) = true := bne_iff_ne.mpr h1
    rw [e1, e2]

theorem filter_map_comm {α β : Type} (f : α → β) (p : β → Bool) (l : List α) :
    (l.map f).filter p = (l.filter (fun a => p (f a))).map f := by
  induction l with
  | nil => rfl
  | cons a t ih =>
      by_cases hp : p (f a) = true
      · simp [List.filter_cons, hp, ih]
      · simp [List.filter_cons, hp, ih]

theorem inv_stopPolling (s : CoordState) (id : String) (hI : TimerInv s) :
    TimerInv (stopPolling s id) := by
  cases hl : lookupRef s id with
  | none => rw [stopPolling_eq_of_none s id hl]; exact hI
  | some h =>
      have hmem : (id, h) ∈ s.pollRefs := lookupRef_some_mem s id h hl
      have hpt := key_val_iff s.pollRefs hI.keysNodup hI.valsNodup id h hmem
      have hfeq : s.pollRefs.filter (fun p => p.2 != h)
          = s.pollRefs.filter (fun p => p.1 != id) := List.filter_congr hpt
      have hstop : stopPolling s id =
          { s with live := s.live.filter (fun t => t.handle != h),
                   pollRefs := s.pollRefs.filter (fun p => p.1 != id) } := by
        unfold stopPolling
        rw [hl]
        rfl
      rw [hstop]
      refine ⟨?_, ?_, ?_, ?_⟩
      · show s.live.filter (fun t => t.handle != h)
            = (s.pollRefs.filter (fun p => p.1 != id)).map conv
        rw [hI.liveEq, filter_map_comm]
        show (s.pollRefs.filter (fun a => a.2 != h)).map conv
            = (s.pollRefs.filter (fun p => p.1 != id)).map conv
        rw [hfeq]
      · exact List.Nodup.sublist
          (List.Sublist.map _ (List.filter_sublist _)) hI.keysNodup
      · exact List.Nodup.sublist
          (List.Sublist.map _ (List.filter_sublist _)) hI.valsNodup
      · intro p hp
        exact hI.bound p (List.mem_of_mem_filter hp)

theorem inv_startPolling (s : CoordState) (id : String) (hI : TimerInv s) :
    TimerInv (startPolling s id) := by
  have hI' : TimerInv (stopPolling s id) := inv_stopPolling s id hI
  have hnone : lookupRef (stopPolling s id) id = none := lookupRef_stopPolling_self s id
  have hfind : (stopPolling s id).pollRefs.find? (fun p => p.1 == id) = none := by
    unfold lookupRef at hnone
    cases hx : (stopPolling s id).pollRefs.find? (fun p => p.1 == id) with
    | none => rfl
    | some v => rw [hx] at hnone; simp at hnone
  have hnokey : ∀ p ∈ (stopPolling s id).pollRefs, ¬ p.1 = id := by
    intro p hp
    have := List.find?_eq_none.mp hfind p hp
    simpa using this
  constructor
  · show LiveTimer.mk (stopPolling s id).nextHandle id pollIntervalMs
        :: (stopPolling s id).live
        = ((id, (stopPolling s id).nextHandle) :: (stopPolling s id).pollRefs).map conv
    rw [List.map_cons, hI'.liveEq]
    rfl
  · show (((id, (stopPolling s id).nextHandle)
        :: (stopPolling s id).pollRefs).map Prod.fst).Nodup
    rw [List.map_cons]
    refine List.nodup_cons.mpr ⟨?_, hI'.keysNodup⟩
    intro hmem
    obtain ⟨p, hp, hpe⟩ := List.mem_map.mp hmem
    exact hnokey p hp hpe
  · show (((id, (stopPolling s id).nextHandle)
        :: (stopPolling s id).pollRefs).map Prod.snd).Nodup
    rw [List.map_cons]
    refine List.nodup_cons.mpr ⟨?_, hI'.valsNodup⟩
    intro hmem
    obtain ⟨p, hp, hpe⟩ := List.mem_map.mp hmem
    have hlt := hI'.bound p hp
    rw [hpe] at hlt
    exact lt_irrefl _ hlt
  · intro p hp
    show p.2 < (stopPolling s id).nextHandle + 1
    rcases List.mem_cons.mp hp with he | ht
    · rw [he]
      exact Nat.lt_succ_self _
    · exact Nat.lt_succ_of_lt (hI'.bound p ht)

theorem inv_stopAllPolling (s : CoordState) (hI : TimerInv s) :
    TimerInv (stopAllPolling s) := by
  constructor
  · show s.live.filter (fun t => !(s.pollRefs.any (fun p => p.2 == t.handle)))
        = List.map conv []
    rw [List.map_nil, List.filter_eq_nil_iff]
    intro t ht
    rw [hI.liveEq] at ht
    obtain ⟨p, hp, hpe⟩ := List.mem_map.mp ht
    have hany : s.pollRefs.any (fun q => q.2 == t.handle) = true := by
      refine List.any_eq_true.mpr ⟨p, hp, ?_⟩
      rw [← hpe]
      simp [conv]
    simp [hany]
  · exact List.nodup_nil
  · exact List.nodup_nil
  · intro p hp
    exact absurd hp (List.not_mem_nil p)

theorem inv_tickBody (s : CoordState) (id : String) (st : JobStatus)
    (hI : TimerInv s) : TimerInv (tickBody s id st) := by
  unfold tickBody
  cases hr : st.running with
  | true => exact hI
  | false =>
      simp only [Bool.false_eq_true, if_false]
      have hI' := inv_stopPolling s id hI
      cases ho : outcomeOf st with
      | some o => exact ⟨hI'.liveEq, hI'.keysNodup, hI'.valsNodup, hI'.bound⟩
      | none => exact ⟨hI'.liveEq, hI'.keysNodup, hI'.valsNodup, hI'.bound⟩

theorem inv_applyAction (s : CoordState) (a : Act) (hI : TimerInv s) :
    TimerInv (applyAction s a) := by
  cases a with
  | collect i ok =>
      rw [applyAction_collect]
      unfold collectStep
      cases ok with
      | true =>
          simp only [if_true]
          exact inv_startPolling _ i ⟨hI.liveEq, hI.keysNodup, hI.valsNodup, hI.bound⟩
      | false =>
          simp only [Bool.false_eq_true, if_false]
          exact ⟨hI.liveEq, hI.keysNodup, hI.valsNodup, hI.bound⟩
  | fire h =>
      rw [applyAction_fire]
      unfold fireStep
      cases hf : s.live.find? (fun t => t.handle == h) with
      | some t => exact ⟨hI.liveEq, hI.keysNodup, hI.valsNodup, hI.bound⟩
      | none => exact hI
  | complete i h ost =>
      rw [applyAction_complete]
      unfold completeStep
      by_cases hc : s.inflight.contains (i, h) = true
      · simp only [hc, if_true]
        cases ost with
        | some st =>
            exact inv_tickBody _ i st ⟨hI.liveEq, hI.keysNodup, hI.valsNodup, hI.bound⟩
        | none => exact ⟨hI.liveEq, hI.keysNodup, hI.valsNodup, hI.bound⟩
      · simp only [hc, if_false]
        exact hI
  | tick i ost =>
      rw [applyAction_tick]
      unfold tickStep
      cases hl : lookupRef s i with
      | some v =>
          cases ost with
          | some st => exact inv_tickBody s i st hI
          | none => exact hI
      | none => exact hI
  | cancel i =>
      rw [applyAction_cancel]
      exact inv_stopPolling s i hI
  | cancelAll =>
      rw [applyAction_cancelAll]
      exact inv_stopAllPolling s hI
  | probe i ost =>
      rw [applyAction_probe]
      unfold probeStep
      cases ost with
      | some st =>
          by_cases hr : st.running = true
          · simp only [hr, if_true]
            exact inv_startPolling _ i ⟨hI.liveEq, hI.keysNodup, hI.valsNodup, hI.bound⟩
          · simp only [hr, if_false]
            exact hI
      | none => exact hI

theorem inv_initState : TimerInv initState :=
  ⟨rfl, List.nodup_nil, List.nodup_nil,
    by intro p hp; exact absurd hp (List.not_mem_nil p)⟩

theorem inv_run (s : CoordState) (hI : TimerInv s) (tr : List Act) :
    TimerInv (run s tr) := by
  induction tr generalizing s with
  | nil => exact hI
  | cons a t ih => exact ih (applyAction s a) (inv_applyAction s a hI)

theorem length_filter_key_le_one :
    ∀ (l : List (String × Nat)), (l.map Prod.fst).Nodup →
      ∀ id : String, (l.filter (fun p => p.1 == id)).length ≤ 1 := by
  intro l
  induction l with
  | nil =>
      intro _ id
      simp
  | cons p t ih =>
      intro hnd id
      rw [List.map_cons, List.nodup_cons] at hnd
      by_cases hp : p.1 = id
      · have ht : t.filter (fun q => q.1 == id) = [] := by
          rw [List.filter_eq_nil_iff]
          intro q hq hqe
          have hq1 : q.1 = id := by simpa using hqe
          have : p.1 ∈ List.map Prod.fst t := by
            rw [hp, ← hq1]
            exact List.mem_map_of_mem _ hq
          exact hnd.1 this
        simp [List.filter_cons, hp, ht]
      · have hpf : (p.1 == id) = false := by simp [hp]
        simp only [List.filter_cons, hpf, Bool.false_eq_true, if_false]
        exact ih hnd.2 id

theorem liveFor_le_one_of_inv (s : CoordState) (hI : TimerInv s) (id : String) :
    (liveFor id s).length ≤ 1 := by
  unfold liveFor
  rw [hI.liveEq, filter_map_comm, List.length_map]
  show (s.pollRefs.filter (fun a => a.1 == id)).length ≤ 1
  exact length_filter_key_le_one s.pollRefs hI.keysNodup id

/-- Claim C5: for every job identity and after every sequence of coordinator
events (start, resume probe, cancel, fire, completion, tick) from the
initial state, at most one live interval timer exists for that identity —
arming polling first releases any existing timer for the id (startPolling
begins with stopPolling), and cancellation and settlement clear the interval
together with its map entry, so no duplicate or leaked timer ever
accumulates. -/
theorem at_most_one_live_timer (tr : List Act) (id : String) :
    (liveFor id (run initState tr)).length ≤ 1 :=
  liveFor_le_one_of_inv _ (inv_run initState inv_initState tr) id

/-! ## Stale in-flight completions (claims C9 and C1) -/

/-- Claim C9 counterexample: an in-flight fetch completing after cancellation
is applied, not discarded.  Start job a (interval handle 0), let the interval
fire (fetch in flight), cancel — releasing the timer — and then let the
fetch complete with a terminal status: the completion handler runs with no
generation or handle check and delivers the outcome, so one settled event is
recorded for the cancelled run where the claim requires none. -/
theorem stale_completion_after_cancel_delivers :
    settledCount idA (run initState
      [Act.collect idA true, Act.fire 0, Act.cancel idA,
       Act.complete idA 0 (some doneStatus)]) = 1 := by
  decide

/-- Claim C9 as amended: the completion of an in-flight fetch is never
discarded — there is no generation/handle guard — so whenever a dispatched
fetch for an id completes with a non-running status carrying an outcome, the
handler runs in full and delivers that outcome, whether or not the timer for
the id is still armed (in particular after cancel released it). -/
theorem stale_completion_applies_unguarded (s : CoordState) (id : String)
    (h : Nat) (st : JobStatus) (o : Outcome)
    (hin : s.inflight.contains (id, h) = true)
    (hnr : st.running = false)
    (ho : outcomeOf st = some o) :
    (applyAction s (Act.complete id h (some st))).events
      = s.events ++ [Event.settled id o] := by
  rw [applyAction_complete]
  unfold completeStep
  simp only [hin, if_true]
  unfold tickBody
  rw [hnr]
  simp only [Bool.false_eq_true, if_false]
  rw [ho]
  show (stopPolling { s with inflight := s.inflight.erase (id, h) } id).events
      ++ [Event.settled id o] = s.events ++ [Event.settled id o]
  rw [stopPolling_events]

/-- Claim C9 witness: after start, fire, cancel, the pending completion still
appends a settled event. -/
theorem stale_completion_applies_unguarded_witness :
    (run initState [Act.collect idA true, Act.fire 0, Act.cancel idA]).inflight.contains
        (idA, 0) = true
    ∧ (applyAction (run initState [Act.collect idA true, Act.fire 0, Act.cancel idA])
        (Act.complete idA 0 (some doneStatus))).events
        = (run initState [Act.collect idA true, Act.fire 0, Act.cancel idA]).events
          ++ [Event.settled idA (Outcome.success payloadBBC)] :=
  ⟨by decide,
    stale_completion_applies_unguarded _ idA 0 doneStatus _
      (by decide) (by decide) (by decide)⟩

/-- Claim C1 counterexample: because the interval callback is async,
setInterval can fire again while the previous fetch is still in flight; two
overlapping in-flight ticks that both observe the terminal status each run
the full handler — there is no settled-guard — so the outcome is delivered
twice for a single run. -/
theorem overlapping_ticks_double_settle :
    settledCount idA (run initState
      [Act.collect idA true, Act.fire 0, Act.fire 0,
       Act.complete idA 0 (some doneStatus),
       Act.complete idA 0 (some doneStatus)]) = 2 := by
  decide

/-- Actions that cannot re-arm polling for id or dispatch a new fetch: any
action except a successful start of id, a probe of id observing running, or
an interval firing. -/
def quiet (id : String) : Act → Bool
  | .collect j ok => !(j == id && ok)
  | .probe j (some st) => !(j == id && st.running)
  | .probe _ none => true
  | .fire _ => false
  | _ => true

theorem inflightFor_erase_nil (l : List (String × Nat)) (x : String × Nat)
    (id : String) (h : l.filter (fun p => p.1 == id) = []) :
    (l.erase x).filter (fun p => p.1 == id) = [] := by
  have hsub : List.Sublist ((l.erase x).filter (fun p => p.1 == id))
      (l.filter (fun p => p.1 == id)) :=
    List.Sublist.filter _ (List.erase_sublist x l)
  rw [h] at hsub
  exact List.sublist_nil.mp hsub

theorem lookupRef_stopPolling_none (s : CoordState) (j id : String)
    (h : lookupRef s id = none) : lookupRef (stopPolling s j) id = none := by
  by_cases hj : id = j
  · subst hj
    exact lookupRef_stopPolling_self s id
  · rw [lookupRef_stopPolling_ne s j id hj]
    exact h

/-- The tick body for a different id, run while no timer for id is armed,
keeps id unarmed, does not touch the in-flight set, and settles nothing
for id. -/
theorem tickBody_quiet (s : CoordState) (j id : String) (st : JobStatus)
    (hj : j ≠ id) (h1 : lookupRef s id = none) :
    lookupRef (tickBody s j st) id = none
    ∧ (tickBody s j st).inflight = s.inflight
    ∧ (tickBody s j st).events.filter (isSettledFor id)
        = s.events.filter (isSettledFor id) := by
  unfold tickBody
  cases hr : st.running with
  | true => exact ⟨h1, rfl, rfl⟩
  | false =>
      simp only [Bool.false_eq_true, if_false]
      cases ho : outcomeOf st with
      | some o =>
          refine ⟨?_, ?_, ?_⟩
          · exact lookupRef_stopPolling_none s j id h1
          · show (stopPolling s j).inflight = s.inflight
            exact stopPolling_inflight s j
          · show ((stopPolling s j).events ++ [Event.settled j o]).filter (isSettledFor id)
                = s.events.filter (isSettledFor id)
            rw [stopPolling_events,
              filter_settled_append _ _ _ (isSettledFor_settled_ne id j o hj)]
      | none =>
          refine ⟨?_, ?_, ?_⟩
          · exact lookupRef_stopPolling_none s j id h1
          · show (stopPolling s j).inflight = s.inflight
            exact stopPolling_inflight s j
          · show (stopPolling s j).events.filter (isSettledFor id)
                = s.events.filter (isSettledFor id)
            rw [stopPolling_events]

/-- One quiet action from a state with no armed timer and no in-flight fetch
for id keeps id unarmed and fetchless and adds no settled event for it. -/
theorem quiet_step (s : CoordState) (id : String) (a : Act)
    (h1 : lookupRef s id = none) (h2 : inflightFor id s = [])
    (hq : quiet id a = true) :
    lookupRef (applyAction s a) id = none
    ∧ inflightFor id (applyAction s a) = []
    ∧ settledCount id (applyAction s a) = settledCount id s := by
  have h2' : s.inflight.filter (fun p => p.1 == id) = [] := h2
  cases a with
  | collect j ok =>
      rw [applyAction_collect]
      unfold collectStep
      cases ok with
      | true =>
          have hj : ¬ j = id := by simpa [quiet] using hq
          simp only [if_true]
          refine ⟨?_, ?_, ?_⟩
          · rw [lookupRef_startPolling_ne _ j id (fun hh => hj hh.symm)]
            exact h1
          · unfold inflightFor
            rw [startPolling_inflight]
            exact h2
          · unfold settledCount settledEvents
            rw [startPolling_events]
            show ((s.events ++ [Event.startRequested j]).filter (isSettledFor id)).length
                = (s.events.filter (isSettledFor id)).length
            rw [filter_settled_append _ _ _ (isSettledFor_startRequested id j)]
      | false =>
          simp only [Bool.false_eq_true, if_false]
          refine ⟨h1, h2, ?_⟩
          unfold settledCount settledEvents
          show (((s.events ++ [Event.startRequested j]) ++ [Event.startError j]).filter
              (isSettledFor id)).length = (s.events.filter (isSettledFor id)).length
          rw [filter_settled_append _ _ _ (isSettledFor_startError id j),
            filter_settled_append _ _ _ (isSettledFor_startRequested id j)]
  | fire h =>
      simp [quiet] at hq
  | complete j h ost =>
      rw [applyAction_complete]
      unfold completeStep
      by_cases hc : s.inflight.contains (j, h) = true
      · have hj : j ≠ id := by
          intro he
          subst he
          have hmem : (j, h) ∈ s.inflight := by simpa using hc
          have hmf : (j, h) ∈ s.inflight.filter (fun p => p.1 == j) := by
            rw [List.mem_filter]
            exact ⟨hmem, by simp⟩
          rw [h2'] at hmf
          exact absurd hmf (List.not_mem_nil _)
        simp only [hc, if_true]
        cases ost with
        | some st =>
            have ht := tickBody_quiet { s with inflight := s.inflight.erase (j, h) }
              j id st hj h1
            refine ⟨ht.1, ?_, ?_⟩
            · unfold inflightFor
              rw [ht.2.1]
              show (s.inflight.erase (j, h)).filter (fun p => p.1 == id) = []
              exact inflightFor_erase_nil s.inflight (j, h) id h2'
            · unfold settledCount settledEvents
              rw [ht.2.2]
        | none =>
            refine ⟨h1, ?_, rfl⟩
            unfold inflightFor
            show (s.inflight.erase (j, h)).filter (fun p => p.1 == id) = []
            exact inflightFor_erase_nil s.inflight (j, h) id h2'
      · simp only [hc, if_false]
        exact ⟨h1, h2, rfl⟩
  | tick j ost =>
      rw [applyAction_tick]
      unfold tickStep
      cases hl : lookupRef s j with
      | some v =>
          have hj : j ≠ id := by
            intro he
            subst he
            rw [h1] at hl
            exact Option.noConfusion hl
          cases ost with
          | some st =>
              have ht := tickBody_quiet s j id st hj h1
              refine ⟨ht.1, ?_, ?_⟩
              · unfold inflightFor
                rw [ht.2.1]
                exact h2'
              · unfold settledCount settledEvents
                rw [ht.2.2]
          | none => exact ⟨h1, h2, rfl⟩
      | none => exact ⟨h1, h2, rfl⟩
  | cancel j =>
      rw [applyAction_cancel]
      refine ⟨lookupRef_stopPolling_none s j id h1, ?_, ?_⟩
      · unfold inflightFor
        rw [stopPolling_inflight]
        exact h2'
      · unfold settledCount settledEvents
        rw [stopPolling_events]
  | cancelAll =>
      rw [applyAction_cancelAll]
      exact ⟨rfl, h2, rfl⟩
  | probe j ost =>
      rw [applyAction_probe]
      unfold probeStep
      cases ost with
      | some st =>
          by_cases hr : st.running = true
          · have hj : ¬ j = id := by
              simp [quiet, hr] at hq
              exact hq
            simp only [hr, if_true]
            refine ⟨?_, ?_, ?_⟩
            · rw [lookupRef_startPolling_ne _ j id (fun hh => hj hh.symm)]
              exact h1
            · unfold inflightFor
              rw [startPolling_inflight]
              exact h2
            · unfold settledCount settledEvents
              rw [startPolling_events]
          · simp only [hr, if_false]
            exact ⟨h1, h2, rfl⟩
      | none => exact ⟨h1, h2, rfl⟩

/-- Along any quiet suffix, an id with no armed timer and no in-flight fetch
stays that way and accumulates no settled events. -/
theorem no_settle (id : String) :
    ∀ (tr : List Act) (s : CoordState),
      lookupRef s id = none → inflightFor id s = [] →
      (∀ a ∈ tr, quiet id a = true) →
      lookupRef (run s tr) id = none ∧ inflightFor id (run s tr) = []
        ∧ settledCount id (run s tr) = settledCount id s := by
  intro tr
  induction tr with
  | nil =>
      intro s hh1 hh2 _
      exact ⟨hh1, hh2, rfl⟩
  | cons a t ih =>
      intro s hh1 hh2 hq
      have hqa : quiet id a = true := hq a (List.mem_cons_self a t)
      have hqt : ∀ b ∈ t, quiet id b = true := fun b hb => hq b (List.mem_cons_of_mem a hb)
      have hstep := quiet_step s id a hh1 hh2 hqa
      have hrest := ih (applyAction s a) hstep.1 hstep.2.1 hqt
      exact ⟨hrest.1, hrest.2.1, hrest.2.2.trans hstep.2.2⟩

/-- A tick that observes a terminal status with an outcome: the timer for the
id is released, the in-flight set is untouched, and exactly one settled
event is appended. -/
theorem tickBody_settles (s : CoordState) (id : String) (st : JobStatus)
    (hrun : st.running = false) (o : Outcome) (ho : outcomeOf st = some o) :
    lookupRef (tickBody s id st) id = none
    ∧ (tickBody s id st).inflight = s.inflight
    ∧ (tickBody s id st).events = s.events ++ [Event.settled id o] := by
  unfold tickBody
  rw [hrun]
  simp only [Bool.false_eq_true, if_false]
  rw [ho]
  refine ⟨?_, ?_, ?_⟩
  · exact lookupRef_stopPolling_self s id
  · show (stopPolling s id).inflight = s.inflight
    exact stopPolling_inflight s id
  · show (stopPolling s id).events ++ [Event.settled id o]
        = s.events ++ [Event.settled id o]
    rw [stopPolling_events]

/-- Claim C1 as amended: exactly-once settlement holds for sequential
(non-overlapping) polling.  From a state where the timer for id is armed and
no fetch for id is in flight, the first tick observing running false with a
populated outcome stops the timer and delivers the outcome once; along any
further actions that do not restart id and do not dispatch overlapping
fetches — stale sequential ticks for id, cancels, and any activity of other
ids included — the settled count for id stays at exactly one more than
before.  (As stated for overlapped in-flight ticks the claim is false: see
the counterexample, where a second suspended callback delivers a second
outcome for the same run.) -/
theorem settle_exactly_once_sequential (s : CoordState) (id : String)
    (st : JobStatus) (tr : List Act)
    (harm : (lookupRef s id).isSome = true)
    (hinf : inflightFor id s = [])
    (hrun : st.running = false)
    (o : Outcome) (ho : outcomeOf st = some o)
    (htr : ∀ a ∈ tr, quiet id a = true) :
    settledCount id (run (applyAction s (Act.tick id (some st))) tr)
      = settledCount id s + 1 := by
  obtain ⟨h0, hl⟩ : ∃ h0, lookupRef s id = some h0 := by
    cases hx : lookupRef s id with
    | none => rw [hx] at harm; simp at harm
    | some v => exact ⟨v, rfl⟩
  have hstep : applyAction s (Act.tick id (some st)) = tickBody s id st := by
    rw [applyAction_tick]
    unfold tickStep
    rw [hl]
  have hts := tickBody_settles s id st hrun o ho
  have hcount : settledCount id (tickBody s id st) = settledCount id s + 1 := by
    unfold settledCount settledEvents
    rw [hts.2.2, List.filter_append]
    have hone : [Event.settled id o].filter (isSettledFor id) = [Event.settled id o] := by
      simp [isSettledFor]
    rw [hone, List.length_append]
    rfl
  have hinf2 : inflightFor id (tickBody s id st) = [] := by
    unfold inflightFor
    rw [hts.2.1]
    exact hinf
  rw [hstep]
  have hns := no_settle id tr (tickBody s id st) hts.1 hinf2 htr
  rw [hns.2.2, hcount]

/-- Claim C1 witness: job a is started and its tick observes the terminal
status; afterwards a stale sequential tick with the same terminal status, a
cancel, and another job's start all leave the settled count at exactly
one. -/
theorem settle_exactly_once_sequential_witness :
    settledCount idA (run (applyAction (run initState [Act.collect idA true])
        (Act.tick idA (some doneStatus)))
      [Act.tick idA (some doneStatus), Act.cancel idA, Act.collect idB true])
      = settledCount idA (run initState [Act.collect idA true]) + 1 :=
  settle_exactly_once_sequential _ idA doneStatus _
    (by decide) (by decide) (by decide)
    (Outcome.success payloadBBC) (by decide) (by decide)
